import Mathlib

/-!
Verification development for the tasmota-exporter program (`main.go`).

The development shallowly embeds the program's core:

* `parseOutlets` / `parseEntry` — the `-outlets` flag parser (`parseOutlets` in
  `main.go`), built on Go-faithful `strings.Split` (`goSplit`) and
  `strings.TrimSpace` (`trimSpace`) models over Unicode scalar values;
* `Energy`, `ESP32`, `StatusSNS`, `TasmotaStatus` — the typed snapshot structs,
  with `float64` measurement values modelled as exact rationals (the program
  performs no arithmetic on them beyond a strict comparison with zero and
  verbatim relay, so the embedding is faithful on both operations);
* `decodeTasmotaStatus` and friends — the `encoding/json` unmarshalling of a
  device status body into `TasmotaStatus`, modelled over an inductive `Json`
  value type (field names matched case-insensitively, unknown fields ignored,
  `null` leaving the current value, type mismatches failing the decode, exactly
  as `json.Unmarshal` behaves on these struct tags);
* `collectOutlet` / `collect` — the per-outlet body of
  `TasmotaCollector.Collect` and the whole scrape.  The real program emits the
  per-outlet observations from one goroutine per outlet into a channel;
  the model serialises the emission in registry order, which is immaterial to
  the per-label content the theorems speak about.

A probe is modelled as an oracle `String → Option TasmotaStatus` from the
target address to `some snapshot` (success) or `none` (any failure: timeout,
connection error, malformed body — `probeTasmota`'s collapsed error path).
-/

namespace Tasmota

/-- Outlet mirrors the Go struct `Outlet`: a configured name and IP. -/
structure Outlet where
  Name : String
  IP : String
deriving DecidableEq, Repr

/-- Character test mirroring Go's `unicode.IsSpace`, which is what
`strings.TrimSpace` trims: ASCII whitespace, NEL, NBSP and the Unicode
White_Space code points. -/
def isGoSpace (c : Char) : Bool :=
  c = ' ' || c = '\t' || c = '\n' || c = '\x0b' || c = '\x0c' || c = '\r' ||
  c.toNat = 0x85 || c.toNat = 0xa0 || c.toNat = 0x1680 ||
  (0x2000 ≤ c.toNat && c.toNat ≤ 0x200a) ||
  c.toNat = 0x2028 || c.toNat = 0x2029 || c.toNat = 0x202f ||
  c.toNat = 0x205f || c.toNat = 0x3000

/-- List-level model of Go's `strings.TrimSpace`: drop leading and trailing
whitespace code points. -/
def trimSpaceList (l : List Char) : List Char :=
  ((l.dropWhile isGoSpace).reverse.dropWhile isGoSpace).reverse

/-- Leading-whitespace trim, the first half of `trimSpaceList`. -/
def trimLeftList (l : List Char) : List Char := l.dropWhile isGoSpace

/-- Trailing-whitespace trim, the second half of `trimSpaceList`. -/
def trimRightList (l : List Char) : List Char :=
  (l.reverse.dropWhile isGoSpace).reverse

/-- Model of Go's `strings.TrimSpace` on strings. -/
def trimSpace (s : String) : String := ⟨trimSpaceList s.data⟩

/-- List-level model of Go's `strings.Split` with a one-character separator:
`splitSep sep l` cuts `l` at every occurrence of `sep`.  Like Go's
`strings.Split`, the empty input yields one empty part, and `n` separators
yield `n+1` parts. -/
def splitSep (sep : Char) : List Char → List (List Char)
  | [] => [[]]
  | c :: cs =>
    if c = sep then
      [] :: splitSep sep cs
    else
      match splitSep sep cs with
      | [] => [[c]]
      | h :: t => (c :: h) :: t

/-- Model of Go's `strings.Split(s, sep)` for a one-character separator. -/
def goSplit (sep : Char) (s : String) : List String :=
  (splitSep sep s.data).map (fun l => ⟨l⟩)

/-- One iteration of the loop body of `parseOutlets` in `main.go`: trim the
entry; skip it if empty; split on `:`; skip unless exactly two parts; trim
name and ip; skip if either is empty; otherwise produce the outlet. -/
def parseEntry (outletStr : String) : Option Outlet :=
  if trimSpace outletStr = "" then none
  else
    match goSplit ':' (trimSpace outletStr) with
    | [p0, p1] =>
      if trimSpace p0 = "" || trimSpace p1 = "" then none
      else some ⟨trimSpace p0, trimSpace p1⟩
    | _ => none

/-- Model of `parseOutlets` in `main.go`: split the flag value on `,` and run
the loop body on each entry in order, appending the successes. -/
def parseOutlets (outletsStr : String) : List Outlet :=
  (goSplit ',' outletsStr).filterMap parseEntry

/-- Modelled from the spec: the entry acceptance rule as the specification
words it — an entry is kept exactly when, after trimming surrounding
whitespace, it splits on `:` into exactly two parts whose independently
trimmed name and address are both non-empty.  Stated from the spec's words to
be compared against `parseEntry`, the rule the code implements. -/
def specParseEntry (entry : String) : Option Outlet :=
  match goSplit ':' (trimSpace entry) with
  | [p0, p1] =>
    if trimSpace p0 = "" || trimSpace p1 = "" then none
    else some ⟨trimSpace p0, trimSpace p1⟩
  | _ => none

/-- Energy mirrors the Go struct `Energy` (the `ENERGY` JSON object); the
`float64` fields are modelled as exact rationals. -/
structure Energy where
  TotalStartTime : String
  Total : ℚ
  Yesterday : ℚ
  Today : ℚ
  Power : ℚ
  ApparentPower : ℚ
  ReactivePower : ℚ
  Factor : ℚ
  Voltage : ℚ
  Current : ℚ
deriving DecidableEq, Repr

/-- ESP32 mirrors the Go struct `ESP32`. -/
structure ESP32 where
  Temperature : ℚ
deriving DecidableEq, Repr

/-- StatusSNS mirrors the Go struct `StatusSNS`. -/
structure StatusSNS where
  Time : String
  ENERGY : Energy
  ESP32 : ESP32
deriving DecidableEq, Repr

/-- TasmotaStatus mirrors the Go struct `TasmotaStatus`, the unmarshalling
target of `probeTasmota`. -/
structure TasmotaStatus where
  StatusSNS : StatusSNS
deriving DecidableEq, Repr

/-- Go zero value of `Energy`. -/
def zeroEnergy : Energy := ⟨"", 0, 0, 0, 0, 0, 0, 0, 0, 0⟩

/-- Go zero value of `StatusSNS`. -/
def zeroStatusSNS : StatusSNS := ⟨"", zeroEnergy, ⟨0⟩⟩

/-- Go zero value of `TasmotaStatus`, the state `json.Unmarshal` starts from. -/
def zeroTasmotaStatus : TasmotaStatus := ⟨zeroStatusSNS⟩

/-- One metric observation sent on the collect channel: the gauge's name, the
value of its single `outlet` label, and the gauge value.  The program attaches
exactly one label (`outlet`) to every gauge, so one label field is the whole
label set. -/
structure MetricObservation where
  metric_name : String
  outlet_label : String
  value : ℚ
deriving DecidableEq, Repr

/-- The body of the per-outlet goroutine in `TasmotaCollector.Collect`,
as the ordered list of observations it sends on the channel: on probe failure
only `tasmota_up = 0`; on success `tasmota_up = 1`, the derived `tasmota_on`
(1 when reported active power is strictly positive, else 0), then the ten raw
measurement gauges copied verbatim from the snapshot. -/
def collectOutlet (outlet : Outlet) (res : Option TasmotaStatus) :
    List MetricObservation :=
  match res with
  | none => [⟨"tasmota_up", outlet.Name, 0⟩]
  | some status =>
    ⟨"tasmota_up", outlet.Name, 1⟩ ::
    (if status.StatusSNS.ENERGY.Power > 0 then
      (⟨"tasmota_on", outlet.Name, 1⟩ : MetricObservation)
    else
      (⟨"tasmota_on", outlet.Name, 0⟩ : MetricObservation)) ::
    ⟨"tasmota_voltage_volts", outlet.Name, status.StatusSNS.ENERGY.Voltage⟩ ::
    ⟨"tasmota_current_amperes", outlet.Name, status.StatusSNS.ENERGY.Current⟩ ::
    ⟨"tasmota_power_watts", outlet.Name, status.StatusSNS.ENERGY.Power⟩ ::
    ⟨"tasmota_apparent_power_voltamperes", outlet.Name,
      status.StatusSNS.ENERGY.ApparentPower⟩ ::
    ⟨"tasmota_reactive_power_voltamperesreactive", outlet.Name,
      status.StatusSNS.ENERGY.ReactivePower⟩ ::
    ⟨"tasmota_power_factor", outlet.Name, status.StatusSNS.ENERGY.Factor⟩ ::
    ⟨"tasmota_today_kwh_total", outlet.Name, status.StatusSNS.ENERGY.Today⟩ ::
    ⟨"tasmota_yesterday_kwh_total", outlet.Name,
      status.StatusSNS.ENERGY.Yesterday⟩ ::
    ⟨"tasmota_kwh_total", outlet.Name, status.StatusSNS.ENERGY.Total⟩ ::
    [⟨"tasmota_temperature_celsius", outlet.Name,
      status.StatusSNS.ESP32.Temperature⟩]

/-- Json values, the image of well-formed JSON text; a probe body that is not
well-formed JSON has no `Json` value and is modelled as `none` upstream. -/
inductive Json where
  | null
  | bool (b : Bool)
  | num (q : ℚ)
  | str (s : String)
  | arr (elems : List Json)
  | obj (fields : List (String × Json))

/-- Character folding of `encoding/json`'s field-name matching (its
`foldName`, equivalent to `bytes.EqualFold`): an ASCII letter folds to its
upper-case form (the smallest rune of its simple-fold orbit), and the only
two non-ASCII runes whose simple-fold orbit reaches ASCII — U+017F LATIN
SMALL LETTER LONG S and U+212A KELVIN SIGN — fold to `S` and `K`.  Every
other rune folds within non-ASCII, so mapping it to itself decides every
comparison against an ASCII struct tag name exactly as Go does; all tag
names of this program are ASCII. -/
def foldChar (c : Char) : Char :=
  if c.toNat = 0x17f then 'S'
  else if c.toNat = 0x212a then 'K'
  else if 0x61 ≤ c.toNat && c.toNat ≤ 0x7a then Char.ofNat (c.toNat - 0x20)
  else c

/-- Key matching of `encoding/json`: a body key matches a struct tag name
when their `foldChar`-folded runes coincide (an exact match is only preferred
between distinct struct fields, which never fold-collide here). -/
def keyEq (a b : String) : Bool :=
  a.data.map foldChar == b.data.map foldChar

/-- Decoding of a JSON value into a Go `float64` field, as `json.Unmarshal`
does it: a number is taken, `null` leaves the current value, anything else is
a type error. -/
def numField (v : Json) (cur : ℚ) : Option ℚ :=
  match v with
  | .num q => some q
  | .null => some cur
  | _ => none

/-- Decoding of a JSON value into a Go `string` field: a string is taken,
`null` leaves the current value, anything else is a type error. -/
def strField (v : Json) (cur : String) : Option String :=
  match v with
  | .str s => some s
  | .null => some cur
  | _ => none

/-- Setter for the `TotalStartTime` field of `Energy`. -/
def setTotalStartTime (e : Energy) (s : String) : Energy :=
  { e with TotalStartTime := s }

/-- Setter for the `Total` field of `Energy`. -/
def setTotal (e : Energy) (q : ℚ) : Energy := { e with Total := q }

/-- Setter for the `Yesterday` field of `Energy`. -/
def setYesterday (e : Energy) (q : ℚ) : Energy := { e with Yesterday := q }

/-- Setter for the `Today` field of `Energy`. -/
def setToday (e : Energy) (q : ℚ) : Energy := { e with Today := q }

/-- Setter for the `Power` field of `Energy`. -/
def setPower (e : Energy) (q : ℚ) : Energy := { e with Power := q }

/-- Setter for the `ApparentPower` field of `Energy`. -/
def setApparentPower (e : Energy) (q : ℚ) : Energy :=
  { e with ApparentPower := q }

/-- Setter for the `ReactivePower` field of `Energy`. -/
def setReactivePower (e : Energy) (q : ℚ) : Energy :=
  { e with ReactivePower := q }

/-- Setter for the `Factor` field of `Energy`. -/
def setFactor (e : Energy) (q : ℚ) : Energy := { e with Factor := q }

/-- Setter for the `Voltage` field of `Energy`. -/
def setVoltage (e : Energy) (q : ℚ) : Energy := { e with Voltage := q }

/-- Setter for the `Current` field of `Energy`. -/
def setCurrent (e : Energy) (q : ℚ) : Energy := { e with Current := q }

/-- Effect of one JSON object member on an `Energy` value under
`json.Unmarshal`: a member whose key matches a struct field decodes into that
field (failing on a type mismatch), any other member is ignored. -/
def updEnergy (e : Energy) (field : String × Json) : Option Energy :=
  if keyEq field.1 "TotalStartTime" then
    (strField field.2 e.TotalStartTime).map (setTotalStartTime e)
  else if keyEq field.1 "Total" then
    (numField field.2 e.Total).map (setTotal e)
  else if keyEq field.1 "Yesterday" then
    (numField field.2 e.Yesterday).map (setYesterday e)
  else if keyEq field.1 "Today" then
    (numField field.2 e.Today).map (setToday e)
  else if keyEq field.1 "Power" then
    (numField field.2 e.Power).map (setPower e)
  else if keyEq field.1 "ApparentPower" then
    (numField field.2 e.ApparentPower).map (setApparentPower e)
  else if keyEq field.1 "ReactivePower" then
    (numField field.2 e.ReactivePower).map (setReactivePower e)
  else if keyEq field.1 "Factor" then
    (numField field.2 e.Factor).map (setFactor e)
  else if keyEq field.1 "Voltage" then
    (numField field.2 e.Voltage).map (setVoltage e)
  else if keyEq field.1 "Current" then
    (numField field.2 e.Current).map (setCurrent e)
  else some e

/-- Decoding of a JSON value into an `Energy` struct field, starting from the
current value `e`: an object applies its members in order, `null` leaves the
value, anything else is a type error. -/
def decodeEnergy (e : Energy) : Json → Option Energy
  | .null => some e
  | .obj fields => fields.foldlM updEnergy e
  | _ => none

/-- Effect of one JSON object member on an `ESP32` value. -/
def updESP32 (t : ESP32) (field : String × Json) : Option ESP32 :=
  if keyEq field.1 "Temperature" then
    (numField field.2 t.Temperature).map (fun q => ⟨q⟩)
  else some t

/-- Decoding of a JSON value into an `ESP32` struct field. -/
def decodeESP32 (t : ESP32) : Json → Option ESP32
  | .null => some t
  | .obj fields => fields.foldlM updESP32 t
  | _ => none

/-- Effect of one JSON object member on a `StatusSNS` value; the nested
`ENERGY` and `ESP32` objects decode into the current nested structs. -/
def updStatusSNS (s : StatusSNS) (field : String × Json) : Option StatusSNS :=
  if keyEq field.1 "Time" then
    (strField field.2 s.Time).map (fun v => { s with Time := v })
  else if keyEq field.1 "ENERGY" then
    (decodeEnergy s.ENERGY field.2).map (fun e => { s with ENERGY := e })
  else if keyEq field.1 "ESP32" then
    (decodeESP32 s.ESP32 field.2).map (fun t => { s with ESP32 := t })
  else some s

/-- Decoding of a JSON value into a `StatusSNS` struct field. -/
def decodeStatusSNS (s : StatusSNS) : Json → Option StatusSNS
  | .null => some s
  | .obj fields => fields.foldlM updStatusSNS s
  | _ => none

/-- Effect of one top-level JSON object member on a `TasmotaStatus` value:
only a key matching `StatusSNS` is decoded, every other member is ignored. -/
def updTasmotaStatus (t : TasmotaStatus) (field : String × Json) :
    Option TasmotaStatus :=
  if keyEq field.1 "StatusSNS" then
    (decodeStatusSNS t.StatusSNS field.2).map (fun s => ⟨s⟩)
  else some t

/-- Model of `json.Unmarshal(body, &status)` in `probeTasmota` on a
well-formed JSON body: unmarshalling starts from the zero `TasmotaStatus`,
a top-level object applies its members in order, top-level `null` leaves the
zero value, and any other top-level value is a type error. -/
def decodeTasmotaStatus : Json → Option TasmotaStatus
  | .null => some zeroTasmotaStatus
  | .obj fields => fields.foldlM updTasmotaStatus zeroTasmotaStatus
  | _ => none

/-- The parse step of `probeTasmota`: a body that is not well-formed JSON
(`none`), or whose JSON value does not decode, yields the failure (`none`,
the Unreachable outcome); otherwise the decoded snapshot. -/
def parseBody : Option Json → Option TasmotaStatus
  | none => none
  | some j => decodeTasmotaStatus j

/-- Model of `TasmotaCollector.Collect` for a given probe oracle: every
registered outlet is probed at its IP and contributes its goroutine's
observations.  The model serialises the concurrent emission in registry
order. -/
def collect (outlets : List Outlet) (probe : String → Option TasmotaStatus) :
    List MetricObservation :=
  match outlets with
  | [] => []
  | o :: rest => collectOutlet o (probe o.IP) ++ collect rest probe

/-- The snapshot served by the mock device of the repository's smoke test
(`TestTasmotaCollector_Smoke`): `Power = 45.2`, `Temperature = 42.5`, and so
on. -/
def sampleStatus : TasmotaStatus :=
  ⟨⟨"2025-01-15T10:30:00",
    ⟨"2025-01-15T00:00:00", 1.5, 0.8, 0.7, 45.2, 50.0, 20.0, 0.9, 240.0, 0.2⟩,
    ⟨42.5⟩⟩⟩

/-- A zero snapshot whose reported active power is `q`, for exercising the
on/off derivation at specific powers. -/
def statusWithPower (q : ℚ) : TasmotaStatus :=
  ⟨⟨"", { zeroEnergy with Power := q }, ⟨0⟩⟩⟩

/-! ## Helper lemmas about the split and trim models -/

theorem splitSep_ne_nil (sep : Char) (l : List Char) : splitSep sep l ≠ [] := by
  induction l with
  | nil => simp [splitSep]
  | cons c cs ih =>
    simp only [splitSep]
    split
    · simp
    · split
      · simp
      · simp

theorem splitSep_no_sep {sep : Char} {l : List Char} (h : sep ∉ l) :
    splitSep sep l = [l] := by
  induction l with
  | nil => rfl
  | cons c cs ih =>
    rw [List.mem_cons] at h
    push_neg at h
    simp only [splitSep]
    rw [if_neg (fun hc => h.1 hc.symm), ih h.2]

theorem splitSep_append (sep : Char) (l₁ l₂ : List Char) :
    splitSep sep (l₁ ++ sep :: l₂) = splitSep sep l₁ ++ splitSep sep l₂ := by
  induction l₁ with
  | nil => simp [splitSep]
  | cons c cs ih =>
    by_cases hc : c = sep
    · simp only [List.cons_append, splitSep, if_pos hc, List.append_eq, ih]
    · simp only [List.cons_append, splitSep, if_neg hc, List.append_eq]
      rcases hE : splitSep sep cs with _ | ⟨h0, t0⟩
      · exact absurd hE (splitSep_ne_nil sep cs)
      · simp [ih, hE]

theorem splitSep_length (sep : Char) (l : List Char) :
    (splitSep sep l).length = l.count sep + 1 := by
  induction l with
  | nil => simp [splitSep]
  | cons c cs ih =>
    simp only [splitSep]
    by_cases hc : c = sep
    · subst hc
      simp [List.count_cons, ih]
    · rw [if_neg hc]
      rcases hE : splitSep sep cs with _ | ⟨h0, t0⟩
      · exact absurd hE (splitSep_ne_nil sep cs)
      · have := ih
        rw [hE] at this
        simp only [List.length_cons] at this ⊢
        rw [List.count_cons]
        simp [Ne.symm hc, this, hc]

theorem count_dropWhile {p : Char → Bool} {c : Char} (hc : p c = false)
    (l : List Char) : (l.dropWhile p).count c = l.count c := by
  conv_rhs => rw [← List.takeWhile_append_dropWhile p l]
  rw [List.count_append]
  have hz : (l.takeWhile p).count c = 0 := by
    rw [List.count_eq_zero]
    intro hmem
    have := List.mem_takeWhile_imp hmem
    rw [hc] at this
    exact Bool.false_ne_true this
  omega

theorem count_trimSpaceList {c : Char} (hc : isGoSpace c = false)
    (l : List Char) : (trimSpaceList l).count c = l.count c := by
  unfold trimSpaceList
  rw [List.count_reverse, count_dropWhile hc, List.count_reverse,
    count_dropWhile hc]

theorem dropWhile_idem (p : Char → Bool) (l : List Char) :
    (l.dropWhile p).dropWhile p = l.dropWhile p := by
  induction l with
  | nil => rfl
  | cons c cs ih =>
    by_cases hc : p c
    · simp [List.dropWhile_cons, hc, ih]
    · simp [List.dropWhile_cons, hc]

theorem trimSpaceList_decompose (l : List Char) :
    trimSpaceList l = trimRightList (trimLeftList l) := rfl

theorem trimLeftList_sublist (l : List Char) : (trimLeftList l).Sublist l :=
  List.dropWhile_sublist isGoSpace

theorem trimRightList_sublist (l : List Char) : (trimRightList l).Sublist l := by
  have h := (List.dropWhile_sublist (l := l.reverse) isGoSpace).reverse
  rwa [List.reverse_reverse] at h

theorem trims_of_trimmed {s : String} (h : trimSpace s = s) :
    trimLeftList s.data = s.data ∧ trimRightList s.data = s.data := by
  have hd : trimSpaceList s.data = s.data := by
    have := congrArg String.data h
    simpa [trimSpace] using this
  have hlen1 : (trimLeftList s.data).length ≤ s.data.length :=
    (trimLeftList_sublist s.data).length_le
  have hlen2 : (trimRightList (trimLeftList s.data)).length ≤
      (trimLeftList s.data).length :=
    (trimRightList_sublist (trimLeftList s.data)).length_le
  have hlen3 : (trimSpaceList s.data).length = s.data.length := by rw [hd]
  rw [trimSpaceList_decompose] at hlen3
  have hL : trimLeftList s.data = s.data :=
    (trimLeftList_sublist s.data).eq_of_length (by omega)
  refine ⟨hL, ?_⟩
  have := hd
  rw [trimSpaceList_decompose, hL] at this
  exact this

theorem dropWhile_append_cons {p : Char → Bool} {c : Char} (hc : p c = false)
    (A B : List Char) :
    (A ++ c :: B).dropWhile p = A.dropWhile p ++ c :: B := by
  rw [List.dropWhile_append]
  split
  · rename_i hE
    rw [List.isEmpty_iff] at hE
    rw [hE, List.nil_append, List.dropWhile_cons, hc]
    simp
  · rfl

theorem reverse_append_cons (c : Char) (X B : List Char) :
    (X ++ c :: B).reverse = B.reverse ++ c :: X.reverse := by
  simp

theorem trimSpaceList_append_cons {c : Char} (hc : isGoSpace c = false)
    (A B : List Char) :
    trimSpaceList (A ++ c :: B) = trimLeftList A ++ c :: trimRightList B := by
  unfold trimSpaceList trimLeftList trimRightList
  rw [dropWhile_append_cons hc, reverse_append_cons, dropWhile_append_cons hc,
    reverse_append_cons, List.reverse_reverse]

theorem data_append (a b : String) : (a ++ b).data = a.data ++ b.data := rfl

theorem mk_data (s : String) : (⟨s.data⟩ : String) = s := rfl

theorem eq_empty_iff_data {s : String} : s = "" ↔ s.data = [] := by
  rw [String.ext_iff]

/-! ## Lemmas about the outlet flag parser -/

theorem parseEntry_eq_spec (e : String) : parseEntry e = specParseEntry e := by
  unfold parseEntry specParseEntry
  by_cases hemp : trimSpace e = ""
  · rw [if_pos hemp, hemp]
    rfl
  · rw [if_neg hemp]

theorem appended_data (name addr : String) :
    (name ++ ":" ++ addr).data = name.data ++ ':' :: addr.data := by
  rw [data_append, data_append]
  simp

theorem parseEntry_many_colons {entry : String}
    (h : 2 ≤ entry.data.count ':') : parseEntry entry = none := by
  have hcolon : isGoSpace ':' = false := by decide
  unfold parseEntry
  by_cases hemp : trimSpace entry = ""
  · simp [hemp]
  · have hcount : (trimSpace entry).data.count ':' = entry.data.count ':' :=
      count_trimSpaceList hcolon entry.data
    have hlen : (splitSep ':' (trimSpace entry).data).length
        = entry.data.count ':' + 1 := by
      rw [splitSep_length, hcount]
    rw [if_neg hemp]
    rcases hS : splitSep ':' (trimSpace entry).data
      with _ | ⟨a, _ | ⟨b, _ | ⟨d, rest⟩⟩⟩
    · exact absurd hS (splitSep_ne_nil _ _)
    · rw [hS] at hlen
      simp at hlen
      omega
    · rw [hS] at hlen
      simp at hlen
      omega
    · simp [goSplit, hS]

theorem parseEntry_accepts {name addr : String}
    (htn : trimSpace name = name) (hta : trimSpace addr = addr)
    (hne : name ≠ "") (hae : addr ≠ "")
    (hca : ':' ∉ addr.data) (hcn : ':' ∉ name.data) :
    parseEntry (name ++ ":" ++ addr) = some ⟨name, addr⟩ := by
  have hcolon : isGoSpace ':' = false := by decide
  obtain ⟨hnl, _⟩ := trims_of_trimmed htn
  obtain ⟨_, har⟩ := trims_of_trimmed hta
  have htrim : trimSpace (name ++ ":" ++ addr) =
      ⟨name.data ++ ':' :: addr.data⟩ := by
    show (⟨trimSpaceList (name ++ ":" ++ addr).data⟩ : String) = _
    rw [appended_data, trimSpaceList_append_cons hcolon, hnl, har]
  have hne2 : trimSpace (name ++ ":" ++ addr) ≠ "" := by
    rw [htrim]
    intro hcon
    have hdata := congrArg String.data hcon
    simp at hdata
  have hsplit : goSplit ':' (trimSpace (name ++ ":" ++ addr)) = [name, addr] := by
    rw [htrim]
    unfold goSplit
    show ((splitSep ':' (name.data ++ ':' :: addr.data)).map fun l => (⟨l⟩ : String)) = _
    rw [splitSep_append, splitSep_no_sep hcn, splitSep_no_sep hca]
    simp [mk_data]
  unfold parseEntry
  rw [if_neg hne2, hsplit]
  simp only [htn, hta]
  rw [if_neg (by simp [hne, hae])]

theorem parseEntry_colon_in_addr {name addr : String} (h : ':' ∈ addr.data) :
    parseEntry (name ++ ":" ++ addr) = none := by
  apply parseEntry_many_colons
  rw [appended_data, List.count_append, List.count_cons]
  have hpos : 0 < addr.data.count ':' := List.count_pos_iff.mpr h
  simp
  omega

/-! ## The registry parser claims -/

/-- C4: for every input string, the registry parser produces one `Outlet` per
comma-separated entry that, after trimming surrounding whitespace, splits on
`:` into exactly two parts whose independently trimmed name and address are
both non-empty (the rule `specParseEntry` states in the spec's words); every
other entry is dropped without failing the parse, and the quoted concrete
inputs behave as the spec's examples say. -/
theorem parse_registry_rule :
    (∀ s : String, parseOutlets s = (goSplit ',' s).filterMap specParseEntry)
    ∧ parseOutlets "livingroom:192.168.1.100" =
        [⟨"livingroom", "192.168.1.100"⟩]
    ∧ parseOutlets "" = []
    ∧ parseOutlets "invalid" = []
    ∧ parseOutlets "livingroom:" = []
    ∧ parseOutlets ":192.168.1.100" = [] := by
  refine ⟨?_, by decide, by decide, by decide, by decide, by decide⟩
  intro s
  unfold parseOutlets
  rw [funext parseEntry_eq_spec]

/-- C5: the parse of a comma-joined input is the ordered concatenation of the
parses of its two halves, so successfully parsed entries keep their input
order; a duplicated entry is parsed twice, never deduplicated or rejected. -/
theorem parse_order_duplicates :
    (∀ a b : String,
      parseOutlets (a ++ "," ++ b) = parseOutlets a ++ parseOutlets b)
    ∧ parseOutlets "livingroom:192.168.1.100,livingroom:192.168.1.100" =
        [⟨"livingroom", "192.168.1.100"⟩, ⟨"livingroom", "192.168.1.100"⟩] := by
  refine ⟨?_, by decide⟩
  intro a b
  unfold parseOutlets goSplit
  have hd : (a ++ "," ++ b).data = a.data ++ ',' :: b.data := by
    rw [data_append, data_append]
    simp
  rw [hd, splitSep_append, List.map_append, List.filterMap_append]

/-- C10: the registry parser validates nothing beyond the split-and-trim
rules — a trimmed, colon-free, non-empty name and address are always
accepted, however un-address-like the address is — while an entry whose
address itself contains a `:` (host:port, IPv6) always splits into more than
two parts and is dropped. -/
theorem parse_no_validation :
    (∀ name addr : String, trimSpace name = name → trimSpace addr = addr →
      name ≠ "" → addr ≠ "" → ':' ∉ addr.data → ':' ∉ name.data →
      parseEntry (name ++ ":" ++ addr) = some ⟨name, addr⟩)
    ∧ (∀ name addr : String, ':' ∈ addr.data →
      parseEntry (name ++ ":" ++ addr) = none)
    ∧ parseOutlets "outlet one:totally @invalid address!" =
        [⟨"outlet one", "totally @invalid address!"⟩]
    ∧ parseOutlets "room:192.168.1.100:8080" = []
    ∧ parseOutlets "room:fe80::1" = [] := by
  refine ⟨?_, ?_, by decide, by decide, by decide⟩
  · intro name addr htn hta hne hae hca hcn
    exact parseEntry_accepts htn hta hne hae hca hcn
  · intro name addr h
    exact parseEntry_colon_in_addr h

/-- Witness for C10: the acceptance branch at a concrete non-IP address and
the rejection branch at a concrete IPv6 address. -/
theorem parse_no_validation_witness :
    (trimSpace "plug" = "plug" ∧ trimSpace "weird addr !" = "weird addr !"
      ∧ ("plug" : String) ≠ "" ∧ ("weird addr !" : String) ≠ ""
      ∧ ':' ∉ "weird addr !".data ∧ ':' ∉ "plug".data
      ∧ parseEntry ("plug" ++ ":" ++ "weird addr !") =
          some ⟨"plug", "weird addr !"⟩)
    ∧ (':' ∈ "fe80::1".data
      ∧ parseEntry ("room" ++ ":" ++ "fe80::1") = none) :=
  ⟨⟨by decide, by decide, by decide, by decide, by decide, by decide,
    parse_no_validation.1 "plug" "weird addr !" (by decide) (by decide)
      (by decide) (by decide) (by decide) (by decide)⟩,
   ⟨by decide,
    parse_no_validation.2.1 "room" "fe80::1" (by decide)⟩⟩

/-! ## Lemmas about the collector -/

theorem collectOutlet_label {o : Outlet} {r : Option TasmotaStatus}
    {m : MetricObservation} (h : m ∈ collectOutlet o r) :
    m.outlet_label = o.Name := by
  cases r with
  | none =>
    simp [collectOutlet] at h
    rw [h]
  | some s =>
    simp only [collectOutlet] at h
    split at h <;>
      simp at h <;>
      rcases h with rfl | rfl | rfl | rfl | rfl | rfl | rfl | rfl | rfl | rfl |
        rfl | rfl <;> rfl

theorem collect_label_mem {outlets : List Outlet}
    {probe : String → Option TasmotaStatus} {m : MetricObservation}
    (h : m ∈ collect outlets probe) : ∃ o ∈ outlets, m.outlet_label = o.Name := by
  induction outlets with
  | nil => simp [collect] at h
  | cons o rest ih =>
    rw [collect, List.mem_append] at h
    rcases h with h | h
    · exact ⟨o, by simp, collectOutlet_label h⟩
    · obtain ⟨o', ho', hl⟩ := ih h
      exact ⟨o', by simp [ho'], hl⟩

theorem collect_filter_of_not_mem {outlets : List Outlet}
    {probe : String → Option TasmotaStatus} {n : String}
    (h : ∀ o ∈ outlets, o.Name ≠ n) :
    (collect outlets probe).filter (fun m => m.outlet_label == n) = [] := by
  rw [List.filter_eq_nil_iff]
  intro m hm
  obtain ⟨o, ho, hl⟩ := collect_label_mem hm
  simp [hl, h o ho]

theorem collectOutlet_filter_self (o : Outlet) (r : Option TasmotaStatus) :
    (collectOutlet o r).filter (fun m => m.outlet_label == o.Name) =
      collectOutlet o r := by
  rw [List.filter_eq_self]
  intro m hm
  simp [collectOutlet_label hm]

theorem collect_filter_unique :
    ∀ (outlets : List Outlet) (probe : String → Option TasmotaStatus)
      (o : Outlet), o ∈ outlets →
      outlets.countP (fun x => x.Name == o.Name) = 1 →
      (collect outlets probe).filter (fun m => m.outlet_label == o.Name) =
        collectOutlet o (probe o.IP) := by
  intro outlets probe o
  induction outlets with
  | nil => intro ho _; simp at ho
  | cons a rest ih =>
    intro ho hcount
    rw [collect, List.filter_append]
    by_cases ha : a.Name = o.Name
    · rw [List.countP_cons, if_pos (by simp [ha])] at hcount
      have hcr : rest.countP (fun x => x.Name == o.Name) = 0 := by omega
      have hoa : o = a := by
        rcases List.mem_cons.mp ho with h | h
        · exact h
        · exfalso
          have hpos : 0 < rest.countP (fun x => x.Name == o.Name) :=
            List.countP_pos_iff.mpr ⟨o, h, by simp⟩
          omega
      subst hoa
      have hrest : (collect rest probe).filter
          (fun m => m.outlet_label == o.Name) = [] := by
        apply collect_filter_of_not_mem
        intro o' ho' hname
        have hpos : 0 < rest.countP (fun x => x.Name == o.Name) :=
          List.countP_pos_iff.mpr ⟨o', ho', by simp [hname]⟩
        omega
      rw [hrest, collectOutlet_filter_self, List.append_nil]
    · have hhead : (collectOutlet a (probe a.IP)).filter
          (fun m => m.outlet_label == o.Name) = [] := by
        rw [List.filter_eq_nil_iff]
        intro m hm
        simp [collectOutlet_label hm, ha]
      rw [hhead, List.nil_append]
      apply ih
      · rcases List.mem_cons.mp ho with h | h
        · exact absurd (by rw [h]) ha
        · exact h
      · rw [List.countP_cons, if_neg (by simp [ha])] at hcount
        omega

theorem collectOutlet_up_count (o : Outlet) (r : Option TasmotaStatus) :
    (collectOutlet o r).countP (fun m => m.metric_name == "tasmota_up") = 1 := by
  cases r with
  | none => rfl
  | some s =>
    simp only [collectOutlet]
    split <;> rfl

theorem collectOutlet_up_label_count (o : Outlet) (r : Option TasmotaStatus)
    (n : String) :
    (collectOutlet o r).countP
      (fun m => m.metric_name == "tasmota_up" && m.outlet_label == n) =
      if o.Name == n then 1 else 0 := by
  by_cases h : o.Name = n
  · cases r with
    | none => simp [collectOutlet, h]
    | some s =>
      simp only [collectOutlet]
      split <;> simp [h]
  · cases r with
    | none => simp [collectOutlet, h]
    | some s =>
      simp only [collectOutlet]
      split <;> simp [h]

/-! ## The collector claims -/

/-- C1: for a registered outlet (unique by name) whose probe fails, a single
`collect` invocation emits exactly one observation carrying that outlet's
label — `tasmota_up` set to 0 — and no measurement observation. -/
theorem collect_unreachable_single (outlets : List Outlet)
    (probe : String → Option TasmotaStatus) (o : Outlet)
    (ho : o ∈ outlets)
    (huniq : outlets.countP (fun x => x.Name == o.Name) = 1)
    (hprobe : probe o.IP = none) :
    (collect outlets probe).filter (fun m => m.outlet_label == o.Name) =
      [⟨"tasmota_up", o.Name, 0⟩] := by
  rw [collect_filter_unique outlets probe o ho huniq, hprobe]
  rfl

/-- Witness for C1: one registered outlet whose probe fails yields exactly
the single `tasmota_up = 0` observation. -/
theorem collect_unreachable_single_witness :
    ((⟨"x", "192.168.1.9"⟩ : Outlet) ∈ [(⟨"x", "192.168.1.9"⟩ : Outlet)]
      ∧ [(⟨"x", "192.168.1.9"⟩ : Outlet)].countP (fun x => x.Name == "x") = 1
      ∧ (fun _ : String => (none : Option TasmotaStatus)) "192.168.1.9" = none)
    ∧ (collect [⟨"x", "192.168.1.9"⟩] (fun _ => none)).filter
        (fun m => m.outlet_label == "x") = [⟨"tasmota_up", "x", 0⟩] :=
  ⟨⟨by decide, by decide, rfl⟩,
    collect_unreachable_single [⟨"x", "192.168.1.9"⟩] (fun _ => none)
      ⟨"x", "192.168.1.9"⟩ (by decide) (by decide) rfl⟩

/-- C2: for a registered outlet (unique by name) whose probe succeeds, a
single `collect` invocation emits exactly the 12 observations of its
goroutine — `tasmota_up = 1`, the derived `tasmota_on`, and the ten raw
measurement gauges, in that order — and every one of them carries that
outlet's configured name as its single label value. -/
theorem collect_reachable_full (outlets : List Outlet)
    (probe : String → Option TasmotaStatus) (o : Outlet) (s : TasmotaStatus)
    (ho : o ∈ outlets)
    (huniq : outlets.countP (fun x => x.Name == o.Name) = 1)
    (hprobe : probe o.IP = some s) :
    (collect outlets probe).filter (fun m => m.outlet_label == o.Name) =
      collectOutlet o (some s)
    ∧ (collectOutlet o (some s)).length = 12
    ∧ (collectOutlet o (some s)).map (fun m => m.metric_name) =
        ["tasmota_up", "tasmota_on", "tasmota_voltage_volts",
         "tasmota_current_amperes", "tasmota_power_watts",
         "tasmota_apparent_power_voltamperes",
         "tasmota_reactive_power_voltamperesreactive", "tasmota_power_factor",
         "tasmota_today_kwh_total", "tasmota_yesterday_kwh_total",
         "tasmota_kwh_total", "tasmota_temperature_celsius"]
    ∧ ∀ m ∈ collectOutlet o (some s), m.outlet_label = o.Name := by
  refine ⟨?_, ?_, ?_, fun m hm => collectOutlet_label hm⟩
  · rw [collect_filter_unique outlets probe o ho huniq, hprobe]
  · simp only [collectOutlet]
    split <;> rfl
  · simp only [collectOutlet]
    split <;> rfl

/-- Witness for C2: one registered outlet probed successfully with the smoke
test's snapshot yields the full 12-observation set. -/
theorem collect_reachable_full_witness :
    ((⟨"test-outlet", "10.0.0.2"⟩ : Outlet) ∈
        [(⟨"test-outlet", "10.0.0.2"⟩ : Outlet)]
      ∧ [(⟨"test-outlet", "10.0.0.2"⟩ : Outlet)].countP
          (fun x => x.Name == "test-outlet") = 1
      ∧ (fun _ : String => some sampleStatus) "10.0.0.2" = some sampleStatus)
    ∧ ((collect [⟨"test-outlet", "10.0.0.2"⟩] (fun _ => some sampleStatus)).filter
        (fun m => m.outlet_label == "test-outlet") =
        collectOutlet ⟨"test-outlet", "10.0.0.2"⟩ (some sampleStatus)
      ∧ (collectOutlet ⟨"test-outlet", "10.0.0.2"⟩ (some sampleStatus)).length = 12
      ∧ (collectOutlet ⟨"test-outlet", "10.0.0.2"⟩ (some sampleStatus)).map
          (fun m => m.metric_name) =
          ["tasmota_up", "tasmota_on", "tasmota_voltage_volts",
           "tasmota_current_amperes", "tasmota_power_watts",
           "tasmota_apparent_power_voltamperes",
           "tasmota_reactive_power_voltamperesreactive", "tasmota_power_factor",
           "tasmota_today_kwh_total", "tasmota_yesterday_kwh_total",
           "tasmota_kwh_total", "tasmota_temperature_celsius"]
      ∧ ∀ m ∈ collectOutlet ⟨"test-outlet", "10.0.0.2"⟩ (some sampleStatus),
          m.outlet_label = "test-outlet") :=
  ⟨⟨by decide, by decide, rfl⟩,
    collect_reachable_full [⟨"test-outlet", "10.0.0.2"⟩]
      (fun _ => some sampleStatus) ⟨"test-outlet", "10.0.0.2"⟩ sampleStatus
      (by decide) (by decide) rfl⟩

/-- C3: the `tasmota_on` observation of a successful probe is derived solely
from reported active power — it is 1 exactly when the snapshot's active power
is strictly positive and 0 otherwise; in particular active power 0.2 yields 1
and active power 0 yields 0. -/
theorem on_off_derivation :
    (∀ (o : Outlet) (s : TasmotaStatus),
      (collectOutlet o (some s)).filter
          (fun m => m.metric_name == "tasmota_on") =
        [⟨"tasmota_on", o.Name,
          if s.StatusSNS.ENERGY.Power > 0 then 1 else 0⟩])
    ∧ (collectOutlet ⟨"o", "a"⟩ (some (statusWithPower 0.2))).filter
        (fun m => m.metric_name == "tasmota_on") = [⟨"tasmota_on", "o", 1⟩]
    ∧ (collectOutlet ⟨"o", "a"⟩ (some (statusWithPower 0))).filter
        (fun m => m.metric_name == "tasmota_on") = [⟨"tasmota_on", "o", 0⟩] := by
  refine ⟨?_, ?_, ?_⟩
  · intro o s
    simp only [collectOutlet]
    split <;> rfl
  · have hp : (statusWithPower 0.2).StatusSNS.ENERGY.Power > 0 := by
      show (0.2 : ℚ) > 0
      norm_num
    simp only [collectOutlet]
    rw [if_pos hp]
    rfl
  · have hp : ¬(statusWithPower 0).StatusSNS.ENERGY.Power > 0 := by
      show ¬(0 : ℚ) > 0
      norm_num
    simp only [collectOutlet]
    rw [if_neg hp]
    rfl

/-- C7: `collect` is a total function (it returns an observation list for
every registry and every probe oracle, never an error), it emits exactly one
`tasmota_up` observation per registered outlet, and for every label value the
number of `tasmota_up` observations carrying it equals the number of
registered outlets with that name. -/
theorem collect_infallible (outlets : List Outlet)
    (probe : String → Option TasmotaStatus) :
    (collect outlets probe).countP (fun m => m.metric_name == "tasmota_up") =
      outlets.length
    ∧ ∀ n : String,
      (collect outlets probe).countP
          (fun m => m.metric_name == "tasmota_up" && m.outlet_label == n) =
        outlets.countP (fun o => o.Name == n) := by
  induction outlets with
  | nil => exact ⟨rfl, fun n => rfl⟩
  | cons a rest ih =>
    constructor
    · rw [collect, List.countP_append, collectOutlet_up_count, ih.1,
        List.length_cons]
      omega
    · intro n
      rw [collect, List.countP_append, collectOutlet_up_label_count, ih.2 n,
        List.countP_cons]
      omega

/-- C8: measurement values pass from the snapshot into the observations
verbatim — the `tasmota_power_watts` observation carries exactly the
snapshot's `Power` and `tasmota_temperature_celsius` exactly its
`Temperature`; at the smoke test's snapshot the emitted values are exactly
45.2 and 42.5. -/
theorem value_fidelity :
    (∀ (o : Outlet) (s : TasmotaStatus),
      (collectOutlet o (some s)).filter
          (fun m => m.metric_name == "tasmota_power_watts") =
        [⟨"tasmota_power_watts", o.Name, s.StatusSNS.ENERGY.Power⟩]
      ∧ (collectOutlet o (some s)).filter
          (fun m => m.metric_name == "tasmota_temperature_celsius") =
        [⟨"tasmota_temperature_celsius", o.Name,
          s.StatusSNS.ESP32.Temperature⟩])
    ∧ sampleStatus.StatusSNS.ENERGY.Power = 45.2
    ∧ sampleStatus.StatusSNS.ESP32.Temperature = 42.5
    ∧ (collectOutlet ⟨"test-outlet", "a"⟩ (some sampleStatus)).filter
        (fun m => m.metric_name == "tasmota_power_watts") =
        [⟨"tasmota_power_watts", "test-outlet", 45.2⟩]
    ∧ (collectOutlet ⟨"test-outlet", "a"⟩ (some sampleStatus)).filter
        (fun m => m.metric_name == "tasmota_temperature_celsius") =
        [⟨"tasmota_temperature_celsius", "test-outlet", 42.5⟩] := by
  have hgen : ∀ (o : Outlet) (s : TasmotaStatus),
      (collectOutlet o (some s)).filter
          (fun m => m.metric_name == "tasmota_power_watts") =
        [⟨"tasmota_power_watts", o.Name, s.StatusSNS.ENERGY.Power⟩]
      ∧ (collectOutlet o (some s)).filter
          (fun m => m.metric_name == "tasmota_temperature_celsius") =
        [⟨"tasmota_temperature_celsius", o.Name,
          s.StatusSNS.ESP32.Temperature⟩] := by
    intro o s
    constructor <;>
      · simp only [collectOutlet]
        split <;> rfl
  refine ⟨hgen, rfl, rfl, ?_, ?_⟩
  · rw [(hgen ⟨"test-outlet", "a"⟩ sampleStatus).1]
    rfl
  · rw [(hgen ⟨"test-outlet", "a"⟩ sampleStatus).2]
    rfl

/-! ## Lemmas about the status decode -/

theorem updTasmotaStatus_unknown {t : TasmotaStatus} {k : String} {v : Json}
    (h : keyEq k "StatusSNS" = false) : updTasmotaStatus t (k, v) = some t := by
  simp [updTasmotaStatus, h]

theorem foldlM_skip {α σ : Type} (f : σ → α → Option σ) (x : α)
    (hx : ∀ s, f s x = some s) (l₁ l₂ : List α) :
    ∀ init : σ,
      List.foldlM f init (l₁ ++ x :: l₂) = List.foldlM f init (l₁ ++ l₂) := by
  induction l₁ with
  | nil =>
    intro init
    rw [List.nil_append, List.nil_append, List.foldlM_cons, hx]
    simp
  | cons a as ih =>
    intro init
    rw [List.cons_append, List.cons_append, List.foldlM_cons, List.foldlM_cons]
    cases hfa : f init a with
    | none => rfl
    | some s => simp [ih]

theorem numField_isSome (v : Json) (c c' : ℚ) :
    (numField v c).isSome = (numField v c').isSome := by
  cases v <;> rfl

theorem strField_isSome (v : Json) (c c' : String) :
    (strField v c).isSome = (strField v c').isSome := by
  cases v <;> rfl

theorem updEnergy_preserves_power {e e' : Energy} {p : String × Json}
    (hk : keyEq p.1 "Power" = false) (h : updEnergy e p = some e') :
    e'.Power = e.Power := by
  unfold updEnergy at h
  by_cases h1 : keyEq p.1 "TotalStartTime" = true
  · rw [if_pos h1] at h
    simp only [Option.map_eq_some'] at h
    obtain ⟨v, hv, rfl⟩ := h
    rfl
  · rw [if_neg h1] at h
    by_cases h2 : keyEq p.1 "Total" = true
    · rw [if_pos h2] at h
      simp only [Option.map_eq_some'] at h
      obtain ⟨v, hv, rfl⟩ := h
      rfl
    · rw [if_neg h2] at h
      by_cases h3 : keyEq p.1 "Yesterday" = true
      · rw [if_pos h3] at h
        simp only [Option.map_eq_some'] at h
        obtain ⟨v, hv, rfl⟩ := h
        rfl
      · rw [if_neg h3] at h
        by_cases h4 : keyEq p.1 "Today" = true
        · rw [if_pos h4] at h
          simp only [Option.map_eq_some'] at h
          obtain ⟨v, hv, rfl⟩ := h
          rfl
        · rw [if_neg h4] at h
          rw [if_neg (by simp [hk])] at h
          by_cases h5 : keyEq p.1 "ApparentPower" = true
          · rw [if_pos h5] at h
            simp only [Option.map_eq_some'] at h
            obtain ⟨v, hv, rfl⟩ := h
            rfl
          · rw [if_neg h5] at h
            by_cases h6 : keyEq p.1 "ReactivePower" = true
            · rw [if_pos h6] at h
              simp only [Option.map_eq_some'] at h
              obtain ⟨v, hv, rfl⟩ := h
              rfl
            · rw [if_neg h6] at h
              by_cases h7 : keyEq p.1 "Factor" = true
              · rw [if_pos h7] at h
                simp only [Option.map_eq_some'] at h
                obtain ⟨v, hv, rfl⟩ := h
                rfl
              · rw [if_neg h7] at h
                by_cases h8 : keyEq p.1 "Voltage" = true
                · rw [if_pos h8] at h
                  simp only [Option.map_eq_some'] at h
                  obtain ⟨v, hv, rfl⟩ := h
                  rfl
                · rw [if_neg h8] at h
                  by_cases h9 : keyEq p.1 "Current" = true
                  · rw [if_pos h9] at h
                    simp only [Option.map_eq_some'] at h
                    obtain ⟨v, hv, rfl⟩ := h
                    rfl
                  · rw [if_neg h9] at h
                    injection h with h
                    rw [← h]

theorem foldlM_energy_power {l : List (String × Json)}
    (hl : ∀ p ∈ l, keyEq p.1 "Power" = false) :
    ∀ e e' : Energy, l.foldlM updEnergy e = some e' → e'.Power = e.Power := by
  induction l with
  | nil =>
    intro e e' h
    rw [List.foldlM_nil] at h
    injection h with h
    rw [← h]
  | cons p ps ih =>
    intro e e' h
    rw [List.foldlM_cons] at h
    cases hfa : updEnergy e p with
    | none =>
      rw [hfa] at h
      simp at h
    | some e1 =>
      rw [hfa] at h
      simp only [Option.bind_eq_bind, Option.some_bind] at h
      have h1 := updEnergy_preserves_power (hl p (by simp)) hfa
      have h2 := ih (fun q hq => hl q (by simp [hq])) e1 e' h
      rw [h2, h1]

theorem updEnergy_isSome (e e' : Energy) (p : String × Json) :
    (updEnergy e p).isSome = (updEnergy e' p).isSome := by
  unfold updEnergy
  by_cases h1 : keyEq p.1 "TotalStartTime" = true
  · simp only [if_pos h1, Option.isSome_map']
    exact strField_isSome p.2 e.TotalStartTime e'.TotalStartTime
  · simp only [if_neg h1]
    by_cases h2 : keyEq p.1 "Total" = true
    · simp only [if_pos h2, Option.isSome_map']
      exact numField_isSome p.2 e.Total e'.Total
    · simp only [if_neg h2]
      by_cases h3 : keyEq p.1 "Yesterday" = true
      · simp only [if_pos h3, Option.isSome_map']
        exact numField_isSome p.2 e.Yesterday e'.Yesterday
      · simp only [if_neg h3]
        by_cases h4 : keyEq p.1 "Today" = true
        · simp only [if_pos h4, Option.isSome_map']
          exact numField_isSome p.2 e.Today e'.Today
        · simp only [if_neg h4]
          by_cases h5 : keyEq p.1 "Power" = true
          · simp only [if_pos h5, Option.isSome_map']
            exact numField_isSome p.2 e.Power e'.Power
          · simp only [if_neg h5]
            by_cases h6 : keyEq p.1 "ApparentPower" = true
            · simp only [if_pos h6, Option.isSome_map']
              exact numField_isSome p.2 e.ApparentPower e'.ApparentPower
            · simp only [if_neg h6]
              by_cases h7 : keyEq p.1 "ReactivePower" = true
              · simp only [if_pos h7, Option.isSome_map']
                exact numField_isSome p.2 e.ReactivePower e'.ReactivePower
              · simp only [if_neg h7]
                by_cases h8 : keyEq p.1 "Factor" = true
                · simp only [if_pos h8, Option.isSome_map']
                  exact numField_isSome p.2 e.Factor e'.Factor
                · simp only [if_neg h8]
                  by_cases h9 : keyEq p.1 "Voltage" = true
                  · simp only [if_pos h9, Option.isSome_map']
                    exact numField_isSome p.2 e.Voltage e'.Voltage
                  · simp only [if_neg h9]
                    by_cases h10 : keyEq p.1 "Current" = true
                    · simp only [if_pos h10, Option.isSome_map']
                      exact numField_isSome p.2 e.Current e'.Current
                    · simp only [if_neg h10]
                      rfl

theorem foldlM_energy_isSome {l : List (String × Json)}
    (hl : ∀ p ∈ l, (updEnergy zeroEnergy p).isSome = true) :
    ∀ e : Energy, (l.foldlM updEnergy e).isSome = true := by
  induction l with
  | nil => intro e; rfl
  | cons p ps ih =>
    intro e
    rw [List.foldlM_cons]
    have hs : (updEnergy e p).isSome = true := by
      rw [updEnergy_isSome e zeroEnergy p]
      exact hl p (by simp)
    cases hfa : updEnergy e p with
    | none =>
      rw [hfa] at hs
      simp at hs
    | some e1 =>
      simp only [Option.bind_eq_bind, Option.some_bind]
      exact ih (fun q hq => hl q (by simp [hq])) e1

/-! ## The status decode claim -/

/-- C6: parsing a device status payload is tolerant — a top-level member
whose key does not fold-match the schema never changes the decode; within the
`ENERGY` object an absent `Power` member leaves `Power` at its zero value,
and an object all of whose members decode keeps the decode succeeding
(absence never fails the parse); the concrete bodies with unknown and missing
fields decode to the expected zero-filled snapshots, a key that Go
fold-matches onto `StatusSNS` only through Unicode simple folding
(`ſtatusSNS`, with U+017F) is decoded rather than ignored (and here fails on
its type mismatch), and only an undecodable (`none`) body yields the
Unreachable outcome of the parse step. -/
theorem tolerant_parsing :
    (∀ (l₁ l₂ : List (String × Json)) (k : String) (v : Json),
      keyEq k "StatusSNS" = false →
      decodeTasmotaStatus (.obj (l₁ ++ (k, v) :: l₂)) =
        decodeTasmotaStatus (.obj (l₁ ++ l₂)))
    ∧ (∀ l : List (String × Json), (∀ p ∈ l, keyEq p.1 "Power" = false) →
        ∀ r : Energy, decodeEnergy zeroEnergy (.obj l) = some r → r.Power = 0)
    ∧ (∀ l : List (String × Json),
        (∀ p ∈ l, (updEnergy zeroEnergy p).isSome = true) →
        (decodeEnergy zeroEnergy (.obj l)).isSome = true)
    ∧ decodeTasmotaStatus (.obj [("Wifi", .num 5), ("Time", .str "t")]) =
        some zeroTasmotaStatus
    ∧ decodeTasmotaStatus
        (.obj [("StatusSNS", .obj [("Time", .str "T"),
          ("ENERGY", .obj [("Voltage", .num 240)]),
          ("UnknownField", .bool true)])]) =
        some ⟨⟨"T", { zeroEnergy with Voltage := 240 }, ⟨0⟩⟩⟩
    ∧ keyEq "ſtatusSNS" "StatusSNS" = true
    ∧ decodeTasmotaStatus (.obj [("ſtatusSNS", .num 5)]) = none
    ∧ (∀ j : Json, parseBody (some j) = decodeTasmotaStatus j)
    ∧ parseBody none = none := by
  refine ⟨?_, ?_, ?_, by decide, by decide, by decide, by decide,
    fun j => rfl, rfl⟩
  · intro l₁ l₂ k v h
    simp only [decodeTasmotaStatus]
    exact foldlM_skip updTasmotaStatus (k, v)
      (fun s => updTasmotaStatus_unknown h) l₁ l₂ zeroTasmotaStatus
  · intro l hl r h
    simp only [decodeEnergy] at h
    have := foldlM_energy_power hl zeroEnergy r h
    rw [this]
    rfl
  · intro l hl
    simp only [decodeEnergy]
    exact foldlM_energy_isSome hl zeroEnergy

/-- Witness for C6: dropping a concrete unknown top-level member, the
Power-absence rule at a concrete `ENERGY` object, and its decode success. -/
theorem tolerant_parsing_witness :
    (keyEq "Wifi" "StatusSNS" = false
      ∧ decodeTasmotaStatus
          (.obj ([("Time", .str "t")] ++ ("Wifi", .num 5) :: [])) =
        decodeTasmotaStatus (.obj ([("Time", .str "t")] ++ [])))
    ∧ ((∀ p ∈ [(("Voltage", Json.num 240) : String × Json)],
          keyEq p.1 "Power" = false)
      ∧ ∀ r : Energy,
          decodeEnergy zeroEnergy (.obj [("Voltage", .num 240)]) = some r →
          r.Power = 0)
    ∧ ((∀ p ∈ [(("Voltage", Json.num 240) : String × Json)],
          (updEnergy zeroEnergy p).isSome = true)
      ∧ (decodeEnergy zeroEnergy (.obj [("Voltage", .num 240)])).isSome
          = true) :=
  ⟨⟨by decide,
    tolerant_parsing.1 [("Time", .str "t")] [] "Wifi" (.num 5) (by decide)⟩,
   ⟨by decide,
    tolerant_parsing.2.1 [("Voltage", .num 240)] (by decide)⟩,
   ⟨by decide,
    tolerant_parsing.2.2.1 [("Voltage", .num 240)] (by decide)⟩⟩

end Tasmota
